import Mathlib

/-!
Verification development for the Sonic Pi C++ API core
(src/app/api/include/api/sonicpi_api.h).

The header implements `APISettings::Preprocess` inline; those definitions are
translated directly from its body.  The remaining components (session state
machine, shutdown path, cue delivery, audio snapshot handoff, OSC wire codec)
are declared in the header but their bodies are not part of the sources at
hand, so they are modelled from the specification, as marked on each
definition.
-/

namespace SonicPi

/-- `APISettings` from the header, with the field defaults of the source. -/
structure APISettings where
  logSynths : Bool := true
  logCues : Bool := false
  checkArgs : Bool := true
  enableExternalSynths : Bool := true
  timingGuarantees : Bool := false
  defaultMidiChannel : Int := -1
  deriving DecidableEq, Repr

/-- `APISettings::Preprocess`, translated statement by statement from the
source: each triggered toggle prepends its directive line in front of the
current value of `code`, and the MIDI-defaults line is prepended
unconditionally at the end. -/
def APISettings.Preprocess (s : APISettings) (code : String) : String :=
  let code := if !s.logSynths then
    "use_debug false #__nosave__ set by Qt GUI user preferences.\n" ++ code else code
  let code := if !s.logCues then
    "use_cue_logging false #__nosave__ set by Qt GUI user preferences.\n" ++ code else code
  let code := if s.checkArgs then
    "use_arg_checks true #__nosave__ set by Qt GUI user preferences.\n" ++ code else code
  let code := if s.enableExternalSynths then
    "use_external_synths true #__nosave__ set by Qt GUI user preferences.\n" ++ code else code
  let code := if s.timingGuarantees then
    "use_timing_guarantees true #__nosave__ set by Qt GUI user preferences.\n" ++ code else code
  "use_midi_defaults channel: \"" ++
    (if s.defaultMidiChannel = -1 then "*" else toString s.defaultMidiChannel) ++
    "\" #__nosave__ set by Qt GUI user preferences.\n" ++ code

/-- The debug directive line of `Preprocess`. -/
def debugDirective : String :=
  "use_debug false #__nosave__ set by Qt GUI user preferences.\n"

/-- The cue-logging directive line of `Preprocess`. -/
def cueDirective : String :=
  "use_cue_logging false #__nosave__ set by Qt GUI user preferences.\n"

/-- The arg-checks directive line of `Preprocess`. -/
def argChecksDirective : String :=
  "use_arg_checks true #__nosave__ set by Qt GUI user preferences.\n"

/-- The external-synths directive line of `Preprocess`. -/
def externalSynthsDirective : String :=
  "use_external_synths true #__nosave__ set by Qt GUI user preferences.\n"

/-- The timing-guarantees directive line of `Preprocess`. -/
def timingDirective : String :=
  "use_timing_guarantees true #__nosave__ set by Qt GUI user preferences.\n"

/-- The channel text of the MIDI-defaults directive: `*` for channel -1,
otherwise the decimal representation (as `std::to_string`). -/
def midiChannelText (s : APISettings) : String :=
  if s.defaultMidiChannel = -1 then "*" else toString s.defaultMidiChannel

/-- The MIDI-defaults directive line of `Preprocess`. -/
def midiDirective (s : APISettings) : String :=
  "use_midi_defaults channel: \"" ++ midiChannelText s ++
    "\" #__nosave__ set by Qt GUI user preferences.\n"

/-- The ordered list of directive lines `Preprocess` puts, front to back, in
front of the submitted code: the MIDI-defaults line first, then one line per
triggered toggle. -/
def directiveLines (s : APISettings) : List String :=
  midiDirective s ::
    ((if s.timingGuarantees then [timingDirective] else []) ++
     (if s.enableExternalSynths then [externalSynthsDirective] else []) ++
     (if s.checkArgs then [argChecksDirective] else []) ++
     (if !s.logCues then [cueDirective] else []) ++
     (if !s.logSynths then [debugDirective] else []))

/-- Concatenation of a list of strings. -/
def strConcat : List String → String
  | [] => ""
  | x :: xs => x ++ strConcat xs

/-- The whole block of text `Preprocess` prepends. -/
def directiveBlock (s : APISettings) : String :=
  strConcat (directiveLines s)

/-- The call frame of `APISettings::Preprocess(std::string& code) const`: the
(const) receiver object and the by-reference string argument. -/
structure PreprocessFrame where
  settings : APISettings
  code : String
  deriving DecidableEq

/-- `APISettings::Preprocess` as a state transformer on its call frame,
translated statement by statement from the source: every assignment in the
body targets `code`; the receiver is `const`. -/
def PreprocessRun (fr : PreprocessFrame) : PreprocessFrame :=
  let fr := if !fr.settings.logSynths then
    { fr with code := "use_debug false #__nosave__ set by Qt GUI user preferences.\n" ++ fr.code }
    else fr
  let fr := if !fr.settings.logCues then
    { fr with code := "use_cue_logging false #__nosave__ set by Qt GUI user preferences.\n" ++ fr.code }
    else fr
  let fr := if fr.settings.checkArgs then
    { fr with code := "use_arg_checks true #__nosave__ set by Qt GUI user preferences.\n" ++ fr.code }
    else fr
  let fr := if fr.settings.enableExternalSynths then
    { fr with code := "use_external_synths true #__nosave__ set by Qt GUI user preferences.\n" ++ fr.code }
    else fr
  let fr := if fr.settings.timingGuarantees then
    { fr with code := "use_timing_guarantees true #__nosave__ set by Qt GUI user preferences.\n" ++ fr.code }
    else fr
  { fr with code := "use_midi_defaults channel: \"" ++
      (if fr.settings.defaultMidiChannel = -1 then "*" else toString fr.settings.defaultMidiChannel) ++
      "\" #__nosave__ set by Qt GUI user preferences.\n" ++ fr.code }

/-- `SonicPiAPI::State` from the header. -/
inductive State
  | Start
  | Initializing
  | Invalid
  | Created
  deriving DecidableEq, Repr, Fintype

/-- The public operations of `SonicPiAPI`, one per public method declared in
the header. -/
inductive ApiOp
  | init
  | waitForServer
  | shutdown
  | run
  | stop
  | bufferNewLineAndIndent
  | audioProcessorEnable
  | audioProcessorEnableFFT
  | audioProcessorSetMaxFFTBuckets
  | audioProcessorConsumedAudio
  | getLogs
  | getGuid
  | testAudio
  | getPath
  | getPort
  | sendOSC
  | loadWorkspaces
  | saveWorkspaces
  | maxWorkspaces
  | saveAndRunBuffer
  | getSettings
  | setSettings
  deriving DecidableEq, Repr, Fintype

/-- Observable effects of one API call in the session model. -/
inductive Effect
  | sendMsg (address : String)
  | launchProcess
  | preconditionError
  | logsReturned
  | shutdownPerformed
  deriving DecidableEq, Repr

/-- Whether an effect is an outbound datagram. -/
def Effect.isSend : Effect → Bool
  | .sendMsg _ => true
  | _ => false

/-- The operations whose normal (Created-state) behavior talks to the
runtime or synth engine. -/
def ApiOp.isOutbound : ApiOp → Bool
  | .run | .stop | .bufferNewLineAndIndent | .sendOSC | .loadWorkspaces
  | .saveWorkspaces | .saveAndRunBuffer | .testAudio
  | .audioProcessorEnable | .audioProcessorEnableFFT
  | .audioProcessorSetMaxFFTBuckets | .audioProcessorConsumedAudio => true
  | _ => false

/-- Modelled from the spec: the effects an operation has in the `Created`
state (the bodies of the `SonicPiAPI` methods are not in the sources at
hand).  Message-sending operations emit one outbound datagram; audio-pipeline
controls and getters act locally. -/
def createdEffects : ApiOp → List Effect
  | .run => [.sendMsg "/save-and-run-buffer"]
  | .stop => [.sendMsg "/stop-all-jobs"]
  | .bufferNewLineAndIndent => [.sendMsg "/buffer-newline-and-indent"]
  | .sendOSC => [.sendMsg "/osc"]
  | .loadWorkspaces => [.sendMsg "/load-buffer"]
  | .saveWorkspaces => [.sendMsg "/save-buffer"]
  | .saveAndRunBuffer => [.sendMsg "/save-and-run-buffer"]
  | .testAudio => [.sendMsg "/run-code"]
  | _ => []

/-- Modelled from the spec: the caller-side step of the session state
machine (`SonicPiAPI` method bodies are not in the sources at hand).  Per the
spec, `Init` from `Start` begins initialization; all public operations other
than `Init`/`Shutdown`/`GetLogs` are no-ops or report a precondition error
when the state is not `Created`; getters and `WaitForServer` (which only
blocks and observes readiness) never mutate the state. -/
def opStep (st : State) (op : ApiOp) : State × List Effect :=
  match op with
  | .init =>
    match st with
    | .Start => (.Initializing, [.launchProcess])
    | _ => (st, [.preconditionError])
  | .shutdown => (st, [.shutdownPerformed])
  | .getLogs => (st, [.logsReturned])
  | .getGuid | .getSettings | .setSettings | .maxWorkspaces | .getPath | .getPort
  | .waitForServer => (st, [])
  | op =>
    match st with
    | .Created => (.Created, createdEffects op)
    | _ => (st, [.preconditionError])

/-- Inbound transport events that drive session-state transitions. -/
inductive InEvent
  | readinessAck
  | processExited
  deriving DecidableEq, Repr, Fintype

/-- Modelled from the spec: transitions driven by the receive loop —
`Initializing` → `Created` on the readiness acknowledgment, any state →
`Invalid` on unexpected process exit, and `Invalid` is terminal. -/
def inboundStep (st : State) (ev : InEvent) : State :=
  match ev with
  | .readinessAck =>
    match st with
    | .Initializing => .Created
    | _ => st
  | .processExited => .Invalid

/-- The session object as seen by the shutdown path: the state machine value
plus whether the shutdown sequence has already run. -/
structure ApiModel where
  state : State
  shutdownDone : Bool
  deriving DecidableEq, Repr, Fintype

/-- The best-effort steps of the shutdown sequence (spec §4.2), plus an
error marker that the sequence must never produce. -/
inductive ShutdownStep
  | stopMsgSent
  | processTerminated
  | cleanupRun
  | transportClosed
  | errorRaised
  deriving DecidableEq, Repr, Fintype

/-- Modelled from the spec: what the first `Shutdown()` call does from each
state — polite stop message only when a session was created, then forceful
terminate, cleanup subprocess, transport close; nothing to stop before
`Init`; every step is best-effort and never raises. -/
def shutdownSteps : State → List ShutdownStep
  | .Start => []
  | .Initializing => [.processTerminated, .cleanupRun, .transportClosed]
  | .Invalid => [.cleanupRun, .transportClosed]
  | .Created => [.stopMsgSent, .processTerminated, .cleanupRun, .transportClosed]

/-- Modelled from the spec: `SonicPiAPI::Shutdown` (body not in the sources
at hand) runs the shutdown sequence once and records completion; repeated
calls find the work already done and do nothing further. -/
def Shutdown (m : ApiModel) : ApiModel × List ShutdownStep :=
  if m.shutdownDone then (m, [])
  else ({ m with shutdownDone := true }, shutdownSteps m.state)

/-- `CueInfo` from the header (`TimePoint` modelled as a millisecond tick
count, `uint64_t index` as `Nat`). -/
structure CueInfo where
  time : String
  address : String
  id : Int
  args : String
  index : Nat
  arrivalTime : Nat
  deriving DecidableEq, Repr

/-- An incoming cue datagram before the API assigns its session-wide
sequence index. -/
structure CueDatum where
  time : String
  address : String
  id : Int
  args : String
  arrivalTime : Nat
  deriving DecidableEq, Repr

/-- Modelled from the spec: the cue path of the receive loop keeps one
per-session counter; each delivered cue carries the current counter as its
`index` and the counter is then incremented. -/
def deliverCues (counter : Nat) : List CueDatum → List CueInfo
  | [] => []
  | d :: ds =>
    { time := d.time, address := d.address, id := d.id, args := d.args,
      index := counter, arrivalTime := d.arrivalTime } :: deliverCues (counter + 1) ds

/-- `ProcessedAudio` from the header: per-channel spectra, quantized
spectra, raw sample windows, and the mono mix. -/
structure ProcessedAudio where
  m_spectrum : List Float × List Float
  m_spectrumQuantized : List Float × List Float
  m_samples : List Float × List Float
  m_monoSamples : List Float

/-- The two operations on the audio snapshot handoff: the analysis thread
publishes a snapshot, the client consumes one (`AudioProcessor_ConsumedAudio`). -/
inductive AudioOp
  | publish (a : ProcessedAudio)
  | consume

/-- Modelled from the spec: the pipeline holds at most one latest-unread
snapshot — a publish overwrites a pending unread snapshot rather than
queuing behind it, and `consumedAudio` clears the pending slot. -/
def audioStep (_pending : List ProcessedAudio) : AudioOp → List ProcessedAudio
  | .publish a => [a]
  | .consume => []

/-- Run a sequence of publish/consume operations over the handoff. -/
def audioRun (pending : List ProcessedAudio) : List AudioOp → List ProcessedAudio
  | [] => pending
  | op :: ops => audioRun (audioStep pending op) ops

/-- An `oscpkt` message argument: the wire format's typed argument kinds
(spec §4.3) — int32, float32 (carried by its 32-bit pattern, the codec moves
bits, not numbers), string, blob. -/
inductive OscArg
  | int32 (v : Int)
  | float32 (bits : Nat)
  | str (s : String)
  | blob (bytes : List Nat)
  deriving DecidableEq, Repr

/-- `oscpkt::Message` as sent by `SonicPiAPI::SendOSC`: an address pattern
plus a typed argument list. -/
structure OscMessage where
  address : String
  args : List OscArg
  deriving DecidableEq, Repr

/-- Modelled from the spec: big-endian packing of a 32-bit word into four
bytes (the oscpkt implementation is not in the sources at hand). -/
def encWord (n : Nat) : List Nat :=
  [n / 16777216 % 256, n / 65536 % 256, n / 256 % 256, n % 256]

/-- Modelled from the spec: an int32 on the wire is the two's-complement
32-bit word of the value. -/
def encInt32 (v : Int) : List Nat :=
  encWord (v % 4294967296).toNat

/-- Modelled from the spec: a string on the wire is its bytes followed by a
terminating NUL. -/
def encStr (s : String) : List Nat :=
  s.data.map Char.toNat ++ [0]

/-- The type tag of an argument. -/
def tagChar : OscArg → Char
  | .int32 _ => 'i'
  | .float32 _ => 'f'
  | .str _ => 's'
  | .blob _ => 'b'

/-- Modelled from the spec: the wire layout of one argument; a blob is
length-prefixed. -/
def encArg : OscArg → List Nat
  | .int32 v => encInt32 v
  | .float32 bits => encWord bits
  | .str s => encStr s
  | .blob bytes => encInt32 (bytes.length : Int) ++ bytes

/-- Wire layout of an argument list. -/
def encArgs : List OscArg → List Nat
  | [] => []
  | a :: rest => encArg a ++ encArgs rest

/-- Modelled from the spec: the wire encoding of a message — the address
string, then the comma-led type-tag string, then the arguments. -/
def encodeMessage (m : OscMessage) : List Nat :=
  encStr m.address ++ encStr (String.mk (',' :: m.args.map tagChar)) ++ encArgs m.args

/-- Parse a NUL-terminated string off the byte stream. -/
def parseCString : List Nat → Option (List Char × List Nat)
  | [] => none
  | 0 :: rest => some ([], rest)
  | (b + 1) :: rest =>
    match parseCString rest with
    | some (cs, r) => some (Char.ofNat (b + 1) :: cs, r)
    | none => none

/-- Parse four bytes as a big-endian 32-bit word. -/
def parseWord : List Nat → Option (Nat × List Nat)
  | b0 :: b1 :: b2 :: b3 :: rest =>
    some (b0 * 16777216 + b1 * 65536 + b2 * 256 + b3, rest)
  | _ => none

/-- Parse an int32 (two's complement). -/
def parseInt32 (bs : List Nat) : Option (Int × List Nat) :=
  match parseWord bs with
  | some (n, rest) =>
    some (if n < 2147483648 then (n : Int) else (n : Int) - 4294967296, rest)
  | none => none

/-- Parse the arguments named by a tag list. -/
def parseArgs : List Char → List Nat → Option (List OscArg × List Nat)
  | [], bs => some ([], bs)
  | 'i' :: ts, bs =>
    match parseInt32 bs with
    | some (v, bs1) =>
      match parseArgs ts bs1 with
      | some (rest, bs2) => some (OscArg.int32 v :: rest, bs2)
      | none => none
    | none => none
  | 'f' :: ts, bs =>
    match parseWord bs with
    | some (n, bs1) =>
      match parseArgs ts bs1 with
      | some (rest, bs2) => some (OscArg.float32 n :: rest, bs2)
      | none => none
    | none => none
  | 's' :: ts, bs =>
    match parseCString bs with
    | some (cs, bs1) =>
      match parseArgs ts bs1 with
      | some (rest, bs2) => some (OscArg.str (String.mk cs) :: rest, bs2)
      | none => none
    | none => none
  | 'b' :: ts, bs =>
    match parseInt32 bs with
    | some (len, bs1) =>
      if 0 ≤ len ∧ len.toNat ≤ bs1.length then
        match parseArgs ts (bs1.drop len.toNat) with
        | some (rest, bs2) => some (OscArg.blob (bs1.take len.toNat) :: rest, bs2)
        | none => none
      else none
    | none => none
  | _ :: _, _ => none

/-- Modelled from the spec: decode one datagram — address string, comma-led
type-tag string, the arguments, and nothing left over. -/
def decodeMessage (bs : List Nat) : Option OscMessage :=
  match parseCString bs with
  | some (addrCs, bs1) =>
    match parseCString bs1 with
    | some (tagCs, bs2) =>
      match tagCs with
      | ',' :: ts =>
        match parseArgs ts bs2 with
        | some (args, []) => some ⟨String.mk addrCs, args⟩
        | _ => none
      | _ => none
    | none => none
  | none => none

/-- A wire-representable character: one nonzero byte. -/
def wfChar (c : Char) : Prop := c.toNat ≠ 0 ∧ c.toNat < 256

/-- A wire-representable string: every character one nonzero byte. -/
def wfString (s : String) : Prop := ∀ c ∈ s.data, wfChar c

/-- A well-formed argument: int32 in range, float bits a 32-bit pattern,
strings wire-representable, blob bytes with an int32-representable length. -/
def wfArg : OscArg → Prop
  | .int32 v => -2147483648 ≤ v ∧ v < 2147483648
  | .float32 bits => bits < 4294967296
  | .str s => wfString s
  | .blob bytes => bytes.length < 2147483648 ∧ ∀ b ∈ bytes, b < 256

/-- A well-formed message: address and all arguments wire-representable. -/
def wfMessage (m : OscMessage) : Prop :=
  wfString m.address ∧ ∀ a ∈ m.args, wfArg a

instance (c : Char) : Decidable (wfChar c) := by
  unfold wfChar; exact inferInstance

instance (s : String) : Decidable (wfString s) := by
  unfold wfString; exact inferInstance

instance (a : OscArg) : Decidable (wfArg a) := by
  cases a <;> unfold wfArg <;> exact inferInstance

instance (m : OscMessage) : Decidable (wfMessage m) := by
  unfold wfMessage; exact inferInstance

end SonicPi

namespace SonicPi

theorem strConcat_nil : strConcat [] = "" := rfl

theorem strConcat_cons (x : String) (xs : List String) :
    strConcat (x :: xs) = x ++ strConcat xs := rfl

theorem strConcat_append (xs ys : List String) :
    strConcat (xs ++ ys) = strConcat xs ++ strConcat ys := by
  induction xs with
  | nil => simp [strConcat]
  | cons x xs ih => simp [strConcat, ih, String.append_assoc]

theorem mem_of_ite_singleton {α : Type} {c : Prop} [Decidable c] {x y : α}
    (h : x ∈ if c then [y] else []) : x = y := by
  split at h
  · simpa using h
  · simp at h

theorem preprocess_eq_block (s : APISettings) (c : String) :
    s.Preprocess c = directiveBlock s ++ c := by
  unfold APISettings.Preprocess directiveBlock directiveLines
  unfold midiDirective midiChannelText timingDirective externalSynthsDirective
  unfold argChecksDirective cueDirective debugDirective
  cases hs : s.logSynths <;> cases hc : s.logCues <;> cases ha : s.checkArgs <;>
    cases he : s.enableExternalSynths <;> cases ht : s.timingGuarantees <;>
    simp only [hs, hc, ha, he, ht, Bool.not_true, Bool.not_false, Bool.false_eq_true,
      eq_self_iff_true, if_true, if_false, ite_true, ite_false,
      List.append_nil, List.nil_append, List.singleton_append, List.cons_append,
      strConcat, String.append_assoc, String.append_empty]

/-- C1: for every settings value and code string, the `Preprocess` output is
exactly one directive line per triggered toggle plus the MIDI-channel line and
then the original code, in the fixed relative order MIDI-channel first, then
timing-guarantees, external-synths, arg-checks, cue-logging, debug. -/
theorem preprocess_directive_lines_order (s : APISettings) (c : String) :
    s.Preprocess c =
      midiDirective s ++
        ((if s.timingGuarantees then timingDirective else "") ++
         ((if s.enableExternalSynths then externalSynthsDirective else "") ++
          ((if s.checkArgs then argChecksDirective else "") ++
           ((if !s.logCues then cueDirective else "") ++
            ((if !s.logSynths then debugDirective else "") ++ c))))) := by
  unfold APISettings.Preprocess
  unfold midiDirective midiChannelText timingDirective externalSynthsDirective
  unfold argChecksDirective cueDirective debugDirective
  cases hs : s.logSynths <;> cases hc : s.logCues <;> cases ha : s.checkArgs <;>
    cases he : s.enableExternalSynths <;> cases ht : s.timingGuarantees <;>
    simp only [hs, hc, ha, he, ht, Bool.not_true, Bool.not_false, Bool.false_eq_true,
      eq_self_iff_true, if_true, if_false, ite_true, ite_false,
      String.append_assoc, String.append_empty, String.empty_append]

set_option maxRecDepth 8000 in
/-- C1 (counterexample): with the default-constructed settings and the code
`play 1`, the output starts with the MIDI-channel directive and ends with the
cue-logging directive followed by the code; in particular the MIDI-channel
directive immediately followed by the original code occurs nowhere in the
output, so the MIDI-channel directive is not the last directive. -/
theorem preprocess_midi_not_last :
    (({} : APISettings).Preprocess "play 1" =
      midiDirective {} ++
        (externalSynthsDirective ++ (argChecksDirective ++ (cueDirective ++ "play 1")))) ∧
    ¬ ((midiDirective {} ++ "play 1").data <:+:
        (({} : APISettings).Preprocess "play 1").data) := by
  constructor
  · decide
  · decide

/-- C2: applying `Preprocess` twice with the same settings yields exactly the
once-preprocessed code with one extra copy of the same directive-prefix block
in front of it, and nothing else changed. -/
theorem preprocess_twice (s : APISettings) (c : String) :
    s.Preprocess (s.Preprocess c) = directiveBlock s ++ s.Preprocess c ∧
    s.Preprocess (s.Preprocess c) = directiveBlock s ++ (directiveBlock s ++ c) := by
  refine ⟨preprocess_eq_block s (s.Preprocess c), ?_⟩
  rw [preprocess_eq_block s (s.Preprocess c), preprocess_eq_block s c]

/-- C3: `Preprocess` is pure: run as a state transformer on its call frame it
leaves every field of the settings untouched, and the resulting code is a
function of the (settings, code) input alone — the pure function
`APISettings.Preprocess` — so equal inputs give equal outputs. -/
theorem preprocess_pure_frame (s : APISettings) (c : String) :
    (PreprocessRun ⟨s, c⟩).settings = s ∧
    (PreprocessRun ⟨s, c⟩).code = s.Preprocess c := by
  unfold PreprocessRun APISettings.Preprocess
  cases hs : s.logSynths <;> cases hc : s.logCues <;> cases ha : s.checkArgs <;>
    cases he : s.enableExternalSynths <;> cases ht : s.timingGuarantees <;>
    simp only [hs, hc, ha, he, ht, Bool.not_true, Bool.not_false, Bool.false_eq_true,
      eq_self_iff_true, if_true, if_false, ite_true, ite_false, and_self]

/-- C4: every directive line `Preprocess` prepends carries the `#__nosave__`
non-persistence marker, for every combination of toggle settings. -/
theorem directive_lines_marked_nosave (s : APISettings) (l : String)
    (h : l ∈ directiveLines s) : "#__nosave__".data <:+: l.data := by
  have hmidi : "#__nosave__".data <:+: (midiDirective s).data := by
    have h1 : "#__nosave__".data <:+:
        ("\" #__nosave__ set by Qt GUI user preferences.\n" : String).data := by decide
    have h2 : ("\" #__nosave__ set by Qt GUI user preferences.\n" : String).data <:+
        (midiDirective s).data := by
      unfold midiDirective
      rw [String.data_append, String.data_append]
      exact List.suffix_append _ _
    exact h1.trans h2.isInfix
  have hsub : directiveLines s ⊆
      [midiDirective s, timingDirective, externalSynthsDirective, argChecksDirective,
       cueDirective, debugDirective] := by
    unfold directiveLines
    intro x hx
    rcases List.mem_cons.mp hx with h1 | h1
    · simp [h1]
    · rcases List.mem_append.mp h1 with h2 | h2
      · rcases List.mem_append.mp h2 with h3 | h3
        · rcases List.mem_append.mp h3 with h4 | h4
          · rcases List.mem_append.mp h4 with h5 | h5
            · simp [mem_of_ite_singleton h5]
            · simp [mem_of_ite_singleton h5]
          · simp [mem_of_ite_singleton h4]
        · simp [mem_of_ite_singleton h3]
      · simp [mem_of_ite_singleton h2]
  have h6 := hsub h
  fin_cases h6
  · exact hmidi
  · decide
  · decide
  · decide
  · decide
  · decide

/-- C4 (witness): the cue-logging directive is among the directive lines of
the default settings and carries the marker. -/
theorem directive_lines_marked_nosave_witness :
    "#__nosave__".data <:+: cueDirective.data :=
  directive_lines_marked_nosave {} cueDirective (by decide)

/-- C10: the MIDI-channel directive is prepended unconditionally for every
settings value, with channel text `*` exactly when `defaultMidiChannel` is
-1 and the decimal representation otherwise; with the default-constructed
settings the output is exactly the four directive lines MIDI-channel (`*`),
external-synths, arg-checks, cue-logging, followed by the code. -/
theorem preprocess_midi_unconditional (s : APISettings) (c : String) :
    s.Preprocess c =
      ("use_midi_defaults channel: \"" ++
        (if s.defaultMidiChannel = -1 then "*" else toString s.defaultMidiChannel) ++
        "\" #__nosave__ set by Qt GUI user preferences.\n") ++
        (strConcat (directiveLines s).tail ++ c) ∧
    ({} : APISettings).Preprocess c =
      midiDirective {} ++
        (externalSynthsDirective ++ (argChecksDirective ++ (cueDirective ++ c))) := by
  constructor
  · rw [preprocess_eq_block s c]
    unfold directiveBlock directiveLines midiDirective midiChannelText
    simp only [strConcat_cons, List.tail_cons, String.append_assoc]
  · rw [preprocess_eq_block {} c]
    unfold directiveBlock directiveLines midiDirective midiChannelText
    unfold externalSynthsDirective argChecksDirective cueDirective
    simp only [strConcat, String.append_assoc, String.append_empty]

/-- C5: in every session state other than `Created`, every public operation
except `Init`, `Shutdown` and `GetLogs` leaves the state unchanged and at
most reports a precondition error; from `Invalid` no outbound operation
other than shutdown sends anything, and no inbound event leaves `Invalid`
(it is terminal). -/
theorem non_created_ops_inert :
    (∀ (st : State) (op : ApiOp), st ≠ State.Created → op ≠ ApiOp.init →
      op ≠ ApiOp.shutdown → op ≠ ApiOp.getLogs →
      (opStep st op).1 = st ∧ ∀ e ∈ (opStep st op).2, e = Effect.preconditionError) ∧
    (∀ op : ApiOp, op.isOutbound = true →
      (opStep State.Invalid op).1 = State.Invalid ∧
      ∀ e ∈ (opStep State.Invalid op).2, e.isSend = false) ∧
    (∀ ev : InEvent, inboundStep State.Invalid ev = State.Invalid) := by
  refine ⟨?_, ?_, ?_⟩ <;> decide

/-- C5 (witness): `Run` invoked in the `Start` state leaves the state
unchanged and only reports a precondition error. -/
theorem non_created_ops_inert_witness :
    (opStep State.Start ApiOp.run).1 = State.Start ∧
    ∀ e ∈ (opStep State.Start ApiOp.run).2, e = Effect.preconditionError :=
  non_created_ops_inert.1 State.Start ApiOp.run (by decide) (by decide) (by decide)
    (by decide)

/-- C6: `Shutdown` is idempotent — the second of two consecutive calls does
nothing and repeats no step, every call (also before a successful `Init` and
from `Invalid`) completes without raising an error, and across two
consecutive calls no shutdown step is performed twice. -/
theorem shutdown_idempotent :
    (∀ m : ApiModel, Shutdown (Shutdown m).1 = ((Shutdown m).1, [])) ∧
    (∀ m : ApiModel, ShutdownStep.errorRaised ∉ (Shutdown m).2) ∧
    (∀ m : ApiModel, ((Shutdown m).2 ++ (Shutdown (Shutdown m).1).2).Nodup) ∧
    (Shutdown ⟨State.Start, false⟩).2 = [] ∧
    (Shutdown ⟨State.Invalid, false⟩).2 =
      [ShutdownStep.cleanupRun, ShutdownStep.transportClosed] := by
  refine ⟨?_, ?_, ?_, ?_, ?_⟩ <;> decide

/-- C6 (witness): after a shutdown from a created session, a second
shutdown call does nothing. -/
theorem shutdown_idempotent_witness :
    Shutdown (Shutdown ⟨State.Created, false⟩).1 = ((Shutdown ⟨State.Created, false⟩).1, []) :=
  shutdown_idempotent.1 ⟨State.Created, false⟩

theorem index_ge_of_mem_deliverCues {n : Nat} {ds : List CueDatum} {c : CueInfo}
    (h : c ∈ deliverCues n ds) : n ≤ c.index := by
  induction ds generalizing n with
  | nil => simp [deliverCues] at h
  | cons d ds ih =>
    rcases List.mem_cons.mp h with h1 | h1
    · subst h1; exact Nat.le_refl n
    · exact Nat.le_of_succ_le (ih h1)

/-- C7: the cue sequence indices delivered through the `Cue` callback are
strictly increasing over a session — for any two cues delivered in order the
later index is strictly greater. -/
theorem cue_indices_strictly_increasing (n : Nat) (ds : List CueDatum) :
    (deliverCues n ds).Pairwise (fun a b => a.index < b.index) := by
  induction ds generalizing n with
  | nil => exact List.Pairwise.nil
  | cons d ds ih =>
    exact List.Pairwise.cons
      (fun b hb => Nat.lt_of_succ_le (index_ge_of_mem_deliverCues hb)) (ih (n + 1))

/-- C8: starting from a handoff holding at most one pending snapshot, any
sequence of publishes and consumptions leaves at most one pending unread
snapshot — a publish overwrites, it never queues. -/
theorem audio_pending_at_most_one (pending : List ProcessedAudio)
    (ops : List AudioOp) (h : pending.length ≤ 1) :
    (audioRun pending ops).length ≤ 1 := by
  induction ops generalizing pending with
  | nil => simpa [audioRun] using h
  | cons op ops ih =>
    simp only [audioRun]
    cases op with
    | publish a => exact ih _ (by simp [audioStep])
    | consume => exact ih _ (by simp [audioStep])

theorem parseCString_encode (cs : List Char) (rest : List Nat)
    (h : ∀ c ∈ cs, wfChar c) :
    parseCString (cs.map Char.toNat ++ 0 :: rest) = some (cs, rest) := by
  induction cs with
  | nil => rfl
  | cons c cs ih =>
    have hc := h c (List.mem_cons_self c cs)
    obtain ⟨b, hb⟩ := Nat.exists_eq_succ_of_ne_zero hc.1
    have hb' : c.toNat = b + 1 := hb
    have hco : Char.ofNat (b + 1) = c := by rw [← hb']; exact Char.ofNat_toNat c
    simp only [List.map_cons, List.cons_append, hb', parseCString]
    rw [ih (fun x hx => h x (List.mem_cons_of_mem c hx))]
    simp [hco]

theorem parseWord_encode (n : Nat) (rest : List Nat) (h : n < 4294967296) :
    parseWord (encWord n ++ rest) = some (n, rest) := by
  simp only [encWord, List.cons_append, List.nil_append, parseWord]
  have hn : n / 16777216 % 256 * 16777216 + n / 65536 % 256 * 65536 +
      n / 256 % 256 * 256 + n % 256 = n := by omega
  rw [hn]

theorem parseInt32_encode (v : Int) (rest : List Nat)
    (h1 : -2147483648 ≤ v) (h2 : v < 2147483648) :
    parseInt32 (encInt32 v ++ rest) = some (v, rest) := by
  have hw := parseWord_encode (v % 4294967296).toNat rest (by omega)
  have hval : (if (v % 4294967296).toNat < 2147483648 then
      (((v % 4294967296).toNat : Nat) : Int)
      else (((v % 4294967296).toNat : Nat) : Int) - 4294967296) = v := by
    split <;> omega
  simp only [encInt32, parseInt32, hw, hval]

theorem wfChar_tagChar (a : OscArg) : wfChar (tagChar a) := by
  cases a <;> simp only [tagChar] <;> decide

theorem parseArgs_encode (args : List OscArg) (rest : List Nat)
    (h : ∀ a ∈ args, wfArg a) :
    parseArgs (args.map tagChar) (encArgs args ++ rest) = some (args, rest) := by
  induction args with
  | nil => rfl
  | cons a args ih =>
    have ha := h a (List.mem_cons_self a args)
    have ih2 := ih (fun x hx => h x (List.mem_cons_of_mem a hx))
    cases a with
    | int32 v =>
      simp only [wfArg] at ha
      simp only [List.map_cons, tagChar, encArgs, encArg, List.append_assoc, parseArgs,
        parseInt32_encode v (encArgs args ++ rest) ha.1 ha.2, ih2]
    | float32 bits =>
      simp only [wfArg] at ha
      simp only [List.map_cons, tagChar, encArgs, encArg, List.append_assoc, parseArgs,
        parseWord_encode bits (encArgs args ++ rest) ha, ih2]
    | str s =>
      simp only [wfArg] at ha
      simp only [List.map_cons, tagChar, encArgs, encArg, List.append_assoc, parseArgs,
        encStr, List.singleton_append, List.cons_append, List.nil_append,
        parseCString_encode s.data (encArgs args ++ rest) ha, ih2]
    | blob bytes =>
      simp only [wfArg] at ha
      simp only [List.map_cons, tagChar, encArgs, encArg, List.append_assoc, parseArgs,
        parseInt32_encode (bytes.length : Int) (bytes ++ (encArgs args ++ rest))
          (by omega) (by omega)]
      have hcond : (0 : Int) ≤ (bytes.length : Int) ∧
          ((bytes.length : Int)).toNat ≤ (bytes ++ (encArgs args ++ rest)).length := by
        refine ⟨by omega, ?_⟩
        simp [List.length_append]
      rw [if_pos hcond]
      simp only [Int.toNat_natCast, List.take_left, List.drop_left, ih2]

/-- C9: decoding the wire encoding of a well-formed message yields the
message back. -/
theorem decode_encode_roundtrip (m : OscMessage) (h : wfMessage m) :
    decodeMessage (encodeMessage m) = some m := by
  obtain ⟨haddr, hargs⟩ := h
  have htag : ∀ c ∈ (',' : Char) :: List.map tagChar m.args, wfChar c := by
    intro c hc
    rcases List.mem_cons.mp hc with h1 | h1
    · subst h1; decide
    · obtain ⟨a, _, rfl⟩ := List.mem_map.mp h1
      exact wfChar_tagChar a
  have hargs2 := parseArgs_encode m.args [] hargs
  rw [List.append_nil] at hargs2
  have haddrparse : parseCString (List.map Char.toNat m.address.data ++
      0 :: ','.toNat :: (List.map Char.toNat (List.map tagChar m.args) ++
        0 :: encArgs m.args)) =
      some (m.address.data, ','.toNat :: (List.map Char.toNat (List.map tagChar m.args) ++
        0 :: encArgs m.args)) :=
    parseCString_encode _ _ haddr
  have htagparse : parseCString (','.toNat ::
      (List.map Char.toNat (List.map tagChar m.args) ++ 0 :: encArgs m.args)) =
      some (',' :: List.map tagChar m.args, encArgs m.args) := by
    have h2 := parseCString_encode (',' :: List.map tagChar m.args) (encArgs m.args) htag
    simpa using h2
  simp only [encodeMessage, decodeMessage, encStr, List.append_assoc, List.map_cons,
    List.singleton_append, List.cons_append, List.nil_append,
    haddrparse, htagparse, hargs2]

/-- C9 (witness): a concrete message exercising all four argument kinds
decodes back from its encoding. -/
theorem decode_encode_roundtrip_witness :
    decodeMessage (encodeMessage ⟨"/cue", [OscArg.int32 (-5), OscArg.float32 1078530011,
      OscArg.str "hello", OscArg.blob [1, 255, 0, 7]]⟩) =
    some ⟨"/cue", [OscArg.int32 (-5), OscArg.float32 1078530011,
      OscArg.str "hello", OscArg.blob [1, 255, 0, 7]]⟩ :=
  decode_encode_roundtrip _ (by decide)

/-- C8 (witness): two publishes with no consumption in between still leave
at most one pending snapshot. -/
theorem audio_pending_at_most_one_witness :
    (audioRun [] [AudioOp.publish ⟨([], []), ([], []), ([], []), []⟩,
      AudioOp.publish ⟨([], []), ([], []), ([], []), []⟩]).length ≤ 1 :=
  audio_pending_at_most_one [] _ (by simp)

end SonicPi
